import Mathlib

/-!
Verification of the xtask developer tool (src/xtask/src/main.rs):
a feature-matrix test/lint driver and a template-based code generator.
Strings are modelled as `List Char`; external commands as a `Cmd` record;
the filesystem touched by the generator as an `FS` record of optional
file contents (`none` = missing/unreadable).
-/

namespace Xtask

/-- Embeds `enum CargoAction` from main.rs. -/
inductive CargoAction where
  | Test
  | Lint
deriving DecidableEq

/-- Embeds `CargoAction::as_str`. -/
def CargoAction.asStr : CargoAction → String
  | .Lint => "clippy"
  | .Test => "test"

/-- Embeds `std::process::Command`: a program plus its argument list. -/
structure Cmd where
  program : String
  args : List String
deriving DecidableEq

/-- Embeds `const FEAT_OPTIONS: [bool; 2] = [false, true]`. -/
def FEAT_OPTIONS : List Bool := [false, true]

/-- Embeds `const FEAT_BYTEMUCK`. -/
def FEAT_BYTEMUCK : String := "bytemuck"

/-- Embeds `const FEAT_SERDE`. -/
def FEAT_SERDE : String := "serde"

/-- Embeds `const FEAT_STD`. -/
def FEAT_STD : String := "std"

/-- Embeds `get_cargo_cmd`: builds the cargo invocation for one action,
package and feature list.  `--features` is added only when the feature
list is nonempty; lint appends `-- -D warnings`. -/
def getCargoCmd (action : CargoAction) (package : String)
    (features : List String) : Cmd :=
  { program := "cargo"
    args :=
      [action.asStr, "--package", package]
        ++ (if features.isEmpty then [] else ["--features", ",".intercalate features])
        ++ (match action with
            | .Test => []
            | .Lint => ["--", "-D", "warnings"]) }

/-- Embeds `test_package`: the two commands it hands to `run_cmd`,
lint first, then test. -/
def testPackagePlan (package : String) (features : List String) : List Cmd :=
  [getCargoCmd .Lint package features, getCargoCmd .Test package features]

/-- Embeds the feature vector built by the pushes in `test_uguid`
(declaration order: bytemuck, serde, std). -/
def uguidFeatures (feat_bytemuck feat_serde feat_std : Bool) : List String :=
  (if feat_bytemuck then [FEAT_BYTEMUCK] else [])
    ++ (if feat_serde then [FEAT_SERDE] else [])
    ++ (if feat_std then [FEAT_STD] else [])

/-- Embeds the feature vector built by the pushes in `test_gpt_disk_types`
(declaration order: bytemuck, std). -/
def typesFeatures (feat_bytemuck feat_std : Bool) : List String :=
  (if feat_bytemuck then [FEAT_BYTEMUCK] else [])
    ++ (if feat_std then [FEAT_STD] else [])

/-- Embeds the feature vector built by the push in `test_gpt_disk_io`. -/
def ioFeatures (feat_std : Bool) : List String :=
  if feat_std then ["std"] else []

/-- Embeds `test_uguid`: the full sequence of commands its nested loops
hand to `run_cmd`, in loop order. -/
def testUguidPlan : List Cmd :=
  FEAT_OPTIONS.flatMap fun feat_bytemuck =>
    FEAT_OPTIONS.flatMap fun feat_serde =>
      FEAT_OPTIONS.flatMap fun feat_std =>
        testPackagePlan ("uguid") (uguidFeatures feat_bytemuck feat_serde feat_std)

/-- Embeds `test_gpt_disk_types`. -/
def testGptDiskTypesPlan : List Cmd :=
  FEAT_OPTIONS.flatMap fun feat_bytemuck =>
    FEAT_OPTIONS.flatMap fun feat_std =>
      testPackagePlan ("gpt_disk_types") (typesFeatures feat_bytemuck feat_std)

/-- Embeds `test_gpt_disk_io`.  Note: the source passes the package name
`"gpt_disk_types"` here, exactly as written in main.rs. -/
def testGptDiskIoPlan : List Cmd :=
  FEAT_OPTIONS.flatMap fun feat_std =>
    testPackagePlan ("gpt_disk_types") (ioFeatures feat_std)

/-- Embeds the dispatch in `main` for the three matrix actions: which
command sequence a given command-line action token triggers. -/
def mainPlan (action : String) : List Cmd :=
  (if action = "test_all" ∨ action = "test_uguid" then testUguidPlan else [])
    ++ (if action = "test_all" ∨ action = "test_gpt_disk_types" then testGptDiskTypesPlan else [])
    ++ (if action = "test_all" ∨ action = "test_gpt_disk_io" then testGptDiskIoPlan else [])

/-- Embeds the line printed by `run_cmd` before launching a command:
the Debug-formatted command with quote characters stripped. -/
def printedLine (c : Cmd) : String :=
  "Running: " ++ " ".intercalate (c.program :: c.args)

/-- The externally observable trace of a matrix run: the lines printed
and the commands launched, in order. -/
structure RunTrace where
  printed : List String
  launched : List Cmd
deriving DecidableEq

/-- Embeds the sequential execution of a command sequence through
`run_cmd`: each command is printed then launched; `env` gives the exit
success of each launched command; the first failure panics, so nothing
after it is printed or launched.  Returns the trace and whether the
whole run succeeded. -/
def runPlan (env : Cmd → Bool) : List Cmd → RunTrace × Bool
  | [] => (⟨[], []⟩, true)
  | c :: rest =>
    if env c then
      let r := runPlan env rest
      (⟨printedLine c :: r.1.printed, c :: r.1.launched⟩, r.2)
    else
      (⟨[printedLine c], [c]⟩, false)

/-- Embeds Rust `str::replace` (all leftmost non-overlapping occurrences
of `pat` replaced by `val`), on `List Char`, with explicit fuel so the
definition is structurally recursive.  The fuel is consumed once per
consumed head character; `replaceAll` below supplies `s.length`, which
is always sufficient. -/
def replaceAllFuel (pat val : List Char) : Nat → List Char → List Char
  | _, [] => []
  | 0, s => s
  | fuel + 1, c :: rest =>
    if pat.isPrefixOf (c :: rest) then
      val ++ replaceAllFuel pat val fuel (List.drop (pat.length - 1) rest)
    else
      c :: replaceAllFuel pat val fuel rest

/-- Embeds Rust `str::replace`: `replaceAll pat val s` replaces every
leftmost non-overlapping occurrence of `pat` in `s` by `val`. -/
def replaceAll (pat val s : List Char) : List Char :=
  replaceAllFuel pat val s.length s

/-- Embeds `struct Replacements` from `gen_guids`. -/
structure Replacements where
  name : List Char
  repr : List Char
  other : List Char
  doc : List Char
deriving DecidableEq

/-- Embeds `aligned_replacements` from `gen_guids` (the doc value is the
raw string literal, quotes included). -/
def alignedReplacements : Replacements :=
  { name := ("AlignedGuid").toList
    repr := ("C, align(8)").toList
    other := ("Guid").toList
    doc := ("\"Globally-unique identifier (8-byte aligned).\n\nThe format is described in Appendix A of the UEFI\nSpecification. Note that the first three fields are little-endian.\n\nThis type is compatible with the `EFI_GUID` type, which is specified\nto be 8-byte aligned.\"").toList }

/-- Embeds `unaligned_replacements` from `gen_guids`. -/
def unalignedReplacements : Replacements :=
  { name := ("Guid").toList
    repr := ("C").toList
    other := ("AlignedGuid").toList
    doc := ("\"Globally-unique identifier (1-byte aligned).\n\nThe format is described in Appendix A of the UEFI\nSpecification. Note that the first three fields are little-endian.\"").toList }

/-- The fixed autogenerated marker plus blank line that `gen_code`
prepends (the `format!` literal up to the placeholder). -/
def MARKER : List Char :=
  ("// This file is autogenerated, do not edit.\n\n").toList

/-- The placeholder token `VAR_STRUCT_NAME`. -/
def NAME_TOK : List Char := ("VAR_STRUCT_NAME").toList

/-- The placeholder token `VAR_STRUCT_REPR`. -/
def REPR_TOK : List Char := ("VAR_STRUCT_REPR").toList

/-- The placeholder token `VAR_OTHER_STRUCT_NAME`. -/
def OTHER_TOK : List Char := ("VAR_OTHER_STRUCT_NAME").toList

/-- The placeholder token `VAR_STRUCT_DOC`. -/
def DOC_TOK : List Char := ("VAR_STRUCT_DOC").toList

/-- The four placeholder tokens, in the order `gen_code` replaces them. -/
def TOKENS : List (List Char) := [NAME_TOK, REPR_TOK, OTHER_TOK, DOC_TOK]

/-- Embeds the `gen_code` closure of `gen_guids`: the marker followed by
the template with the four tokens replaced in sequence (name, repr,
other, doc). -/
def genCode (template : List Char) (r : Replacements) : List Char :=
  MARKER ++
    replaceAll DOC_TOK r.doc
      (replaceAll OTHER_TOK r.other
        (replaceAll REPR_TOK r.repr
          (replaceAll NAME_TOK r.name template)))

/-- The filesystem state seen by `gen_guids`: the template file and the
two target files; `none` means missing/unreadable. -/
structure FS where
  template : Option (List Char)
  aligned : Option (List Char)
  unaligned : Option (List Char)
deriving DecidableEq

/-- The filesystem accesses `gen_guids` performs, in program order. -/
inductive FsEvent where
  | readTemplate
  | readAligned
  | readUnaligned
  | writeAligned
  | writeUnaligned
deriving DecidableEq

/-- Embeds `gen_guids`: reads the template, renders both files, computes
`changed` with Rust short-circuit `||` evaluation order (the unaligned
pre-read happens only when the aligned comparison found no difference),
then unconditionally writes both files and exits 1 when `changed`.

Returns the ordered list of filesystem accesses performed, and `none`
when a `.unwrap()` panics (with the filesystem unchanged, since both
pre-reads precede both writes), or `some` of the final filesystem and
the process exit code. -/
def genGuids (fs : FS) : List FsEvent × Option (FS × Nat) :=
  match fs.template with
  | none => ([.readTemplate], none)
  | some template =>
    let aligned_code := genCode template alignedReplacements
    let unaligned_code := genCode template unalignedReplacements
    match fs.aligned with
    | none => ([.readTemplate, .readAligned], none)
    | some old_aligned =>
      if old_aligned ≠ aligned_code then
        ([.readTemplate, .readAligned, .writeAligned, .writeUnaligned],
         some ({ fs with aligned := some aligned_code,
                         unaligned := some unaligned_code }, 1))
      else
        match fs.unaligned with
        | none => ([.readTemplate, .readAligned, .readUnaligned], none)
        | some old_unaligned =>
          ([.readTemplate, .readAligned, .readUnaligned,
            .writeAligned, .writeUnaligned],
           some ({ fs with aligned := some aligned_code,
                           unaligned := some unaligned_code },
                 if old_unaligned ≠ unaligned_code then 1 else 0))

/-- Number of positions of `s` at which `pat` occurs (as a contiguous
substring). -/
def countOcc (pat s : List Char) : Nat :=
  ((List.range (s.length + 1)).filter fun i => pat.isPrefixOf (s.drop i)).length

/-- `s` contains no capital letter V.  Every placeholder token starts
with (and contains exactly one) `V`, and no replacement value or
inter-token text of a well-formed template contains one, which is what
makes the sequential substitution clean. -/
abbrev noV (s : List Char) : Prop := 'V' ∉ s

/-- A template split into literal text and placeholder-token segments. -/
inductive Seg where
  | lit (s : List Char)
  | tok (t : List Char)
deriving DecidableEq

/-- Concatenate the segments back into the template text. -/
def Seg.flattenList : List Seg → List Char
  | [] => []
  | .lit s :: rest => s ++ Seg.flattenList rest
  | .tok t :: rest => t ++ Seg.flattenList rest

/-- Substitute one token segment-wise: token segments equal to `pat`
become the literal `val`; everything else is unchanged. -/
def substSeg (pat val : List Char) : List Seg → List Seg :=
  List.map fun seg =>
    match seg with
    | .tok t => if t = pat then .lit val else .tok t
    | .lit s => .lit s

/-- A well-formed segment: a V-free literal or a placeholder token. -/
def Seg.ok : Seg → Prop
  | .lit s => noV s
  | .tok t => t ∈ TOKENS

/-- Well-formed segmentation: literal segments are V-free and token
segments are placeholder tokens. -/
def SegOk (segs : List Seg) : Prop :=
  ∀ seg ∈ segs, seg.ok

/-- The value a rendering profile substitutes for each token. -/
def tokenValue (r : Replacements) (t : List Char) : List Char :=
  if t = NAME_TOK then r.name
  else if t = REPR_TOK then r.repr
  else if t = OTHER_TOK then r.other
  else if t = DOC_TOK then r.doc
  else t

/-- The feature combinations visited by `test_uguid`, in loop order. -/
def uguidCombos : List (List String) :=
  FEAT_OPTIONS.flatMap fun feat_bytemuck =>
    FEAT_OPTIONS.flatMap fun feat_serde =>
      FEAT_OPTIONS.flatMap fun feat_std =>
        [uguidFeatures feat_bytemuck feat_serde feat_std]

/-- The feature combinations visited by `test_gpt_disk_types`. -/
def typesCombos : List (List String) :=
  FEAT_OPTIONS.flatMap fun feat_bytemuck =>
    FEAT_OPTIONS.flatMap fun feat_std =>
      [typesFeatures feat_bytemuck feat_std]

/-- The feature combinations visited by `test_gpt_disk_io`. -/
def ioCombos : List (List String) :=
  FEAT_OPTIONS.flatMap fun feat_std => [ioFeatures feat_std]

/-- An environment in which every cargo invocation that passes a
`--features` argument fails (used to witness the abort-on-failure
claim: the first such command in `test_uguid`'s sequence is at
index 2). -/
def failEnv : Cmd → Bool :=
  fun c => ! c.args.contains ("--features")

/-- A template exhibiting that sequential token replacement can
re-create a placeholder token: it contains each of the four tokens
exactly once, but the stray fragment `VAR_STRU` directly before the
`VAR_STRUCT_REPR` occurrence merges with the unaligned profile's repr
value `C` and the following text `T_REPR` into a fresh
`VAR_STRUCT_REPR` occurrence in the rendered output. -/
def advTemplate : List Char :=
  ("VAR_STRUVAR_STRUCT_REPRT_REPR VAR_STRUCT_NAME VAR_OTHER_STRUCT_NAME VAR_STRUCT_DOC").toList

end Xtask

namespace Xtask

/-- The three-element "treat warnings as errors" tail never occurs
contiguously in a test invocation's arguments, whatever the package and
features: the constant argument skeleton blocks every alignment. -/
theorem warnings_tail_not_infix_test (package : String) (features : List String) :
    ¬ (["--", "-D", "warnings"] <:+: (getCargoCmd .Test package features).args) := by
  rintro ⟨s, t, hst⟩
  simp only [getCargoCmd, CargoAction.asStr] at hst
  by_cases hf : features.isEmpty = true
  · rw [if_pos hf] at hst
    simp only [List.append_nil] at hst
    have hlen := congrArg List.length hst
    simp at hlen
    rcases s with _ | ⟨x, _ | ⟨y, _ | ⟨z, s'⟩⟩⟩ <;> simp_all
  · rw [if_neg hf] at hst
    simp only [List.append_nil] at hst
    have hlen := congrArg List.length hst
    simp at hlen
    rcases s with _ | ⟨x, _ | ⟨y, _ | ⟨z, s'⟩⟩⟩ <;> simp_all
    omega

/-- C1: the claim says every invocation issued by the `test_gpt_disk_io`
action names the package `gpt_disk_io`; the code instead passes
`gpt_disk_types` in every one of the four invocations that action
issues (the `--package` value is argument index 2). -/
theorem c1_io_action_wrong_package :
    mainPlan ("test_gpt_disk_io") = testGptDiskIoPlan
      ∧ testGptDiskIoPlan ≠ []
      ∧ (testGptDiskIoPlan.all fun c => c.args[1]? == some ("--package")
          && c.args[2]? == some ("gpt_disk_types")) = true
      ∧ (testGptDiskIoPlan.all fun c => !(c.args[2]? == some ("gpt_disk_io"))) = true := by
  decide

/-- C2: each matrix driver issues exactly `2 * 2 ^ k` invocations when
every invocation succeeds; its command sequence is lint-then-test over
its combination list; the combinations are pairwise distinct, contain
every boolean assignment over the package's flag set, and keep flag
names in declaration order (each combination is a sublist of the
declared flag list). -/
theorem c2_matrix_exhaustive :
    (testUguidPlan.length = 2 * 2 ^ 3
      ∧ testUguidPlan = uguidCombos.flatMap
          (fun f => [getCargoCmd .Lint ("uguid") f, getCargoCmd .Test ("uguid") f])
      ∧ uguidCombos.Nodup
      ∧ ([false, true].all fun b => [false, true].all fun s => [false, true].all fun st =>
          uguidCombos.contains (uguidFeatures b s st)) = true
      ∧ (uguidCombos.all fun f => decide (f.Sublist [FEAT_BYTEMUCK, FEAT_SERDE, FEAT_STD])) = true
      ∧ (runPlan (fun _ => true) testUguidPlan).1.launched = testUguidPlan)
    ∧ (testGptDiskTypesPlan.length = 2 * 2 ^ 2
      ∧ testGptDiskTypesPlan = typesCombos.flatMap
          (fun f => [getCargoCmd .Lint ("gpt_disk_types") f, getCargoCmd .Test ("gpt_disk_types") f])
      ∧ typesCombos.Nodup
      ∧ ([false, true].all fun b => [false, true].all fun st =>
          typesCombos.contains (typesFeatures b st)) = true
      ∧ (typesCombos.all fun f => decide (f.Sublist [FEAT_BYTEMUCK, FEAT_STD])) = true
      ∧ (runPlan (fun _ => true) testGptDiskTypesPlan).1.launched = testGptDiskTypesPlan)
    ∧ (testGptDiskIoPlan.length = 2 * 2 ^ 1
      ∧ testGptDiskIoPlan = ioCombos.flatMap
          (fun f => [getCargoCmd .Lint ("gpt_disk_types") f, getCargoCmd .Test ("gpt_disk_types") f])
      ∧ ioCombos.Nodup
      ∧ ([false, true].all fun st => ioCombos.contains (ioFeatures st)) = true
      ∧ (ioCombos.all fun f => decide (f.Sublist [FEAT_STD])) = true
      ∧ (runPlan (fun _ => true) testGptDiskIoPlan).1.launched = testGptDiskIoPlan) := by
  decide

/-- C6: a lint invocation's arguments always end with
`-- -D warnings`, and that three-argument tail never occurs inside a
test invocation's arguments. -/
theorem c6_lint_warnings (package : String) (features : List String) :
    ["--", "-D", "warnings"] <:+ (getCargoCmd .Lint package features).args
      ∧ ¬ (["--", "-D", "warnings"] <:+: (getCargoCmd .Test package features).args) := by
  refine ⟨?_, warnings_tail_not_infix_test package features⟩
  simp only [getCargoCmd, CargoAction.asStr]
  exact List.suffix_append _ _

/-- C6 witness at a concrete package and feature list. -/
theorem c6_witness :
    ["--", "-D", "warnings"] <:+ (getCargoCmd .Lint ("uguid") [FEAT_STD]).args
      ∧ ¬ (["--", "-D", "warnings"] <:+: (getCargoCmd .Test ("uguid") [FEAT_STD]).args) :=
  c6_lint_warnings ("uguid") [FEAT_STD]

/-- C7: in every constructed invocation, a `--features` argument with
the non-empty comma-joined feature names is present exactly when at
least one flag of the combination is true, and is absent entirely for
the all-false combination. -/
theorem c7_features_iff (action : CargoAction) (b s st : Bool) :
    (if b || s || st then
        ["--features", ",".intercalate (uguidFeatures b s st)] <:+:
            (getCargoCmd action ("uguid") (uguidFeatures b s st)).args
          ∧ ",".intercalate (uguidFeatures b s st) ≠ ""
      else ("--features") ∉ (getCargoCmd action ("uguid") (uguidFeatures b s st)).args)
    ∧ (if b || st then
        ["--features", ",".intercalate (typesFeatures b st)] <:+:
            (getCargoCmd action ("gpt_disk_types") (typesFeatures b st)).args
          ∧ ",".intercalate (typesFeatures b st) ≠ ""
      else ("--features") ∉ (getCargoCmd action ("gpt_disk_types") (typesFeatures b st)).args)
    ∧ (if st then
        ["--features", ",".intercalate (ioFeatures st)] <:+:
            (getCargoCmd action ("gpt_disk_types") (ioFeatures st)).args
          ∧ ",".intercalate (ioFeatures st) ≠ ""
      else ("--features") ∉ (getCargoCmd action ("gpt_disk_types") (ioFeatures st)).args) := by
  cases action <;> revert b s st <;> decide

/-- C8: the first failing command aborts the whole run: if every
command before index `i` succeeds and the command at `i` fails, then
exactly the first `i + 1` commands are printed and launched, in order,
and nothing after them. -/
theorem c8_abort_on_failure (env : Cmd → Bool) (plan : List Cmd) (i : Nat)
    (hi : i < plan.length)
    (hpre : ∀ j, j < i → ∀ hj : j < plan.length, env (plan.get ⟨j, hj⟩) = true)
    (hfail : env (plan.get ⟨i, hi⟩) = false) :
    runPlan env plan =
      (⟨(List.take (i + 1) plan).map printedLine, List.take (i + 1) plan⟩, false) := by
  induction plan generalizing i with
  | nil => exact absurd hi (Nat.not_lt_zero i)
  | cons c rest ih =>
    cases i with
    | zero =>
      have hc : env c = false := hfail
      simp [runPlan, hc]
    | succ i' =>
      have hc : env c = true := hpre 0 (Nat.succ_pos i') (Nat.succ_pos rest.length)
      have hi' : i' < rest.length := Nat.lt_of_succ_lt_succ hi
      have hpre' : ∀ j, j < i' → ∀ hj : j < rest.length, env (rest.get ⟨j, hj⟩) = true := by
        intro j hj hlen
        have := hpre (j + 1) (Nat.succ_lt_succ hj) (Nat.succ_lt_succ hlen)
        rwa [List.get_cons_succ] at this
      have hfail' : env (rest.get ⟨i', hi'⟩) = false := by
        rw [List.get_cons_succ] at hfail
        exact hfail
      simp only [runPlan, hc, if_true, ih i' hi' hpre' hfail', List.take_succ_cons,
        List.map_cons]

/-- C8 witness: in `failEnv` every command carrying `--features` fails;
the first such command in `test_uguid`'s sequence is at index 2, so the
run stops after exactly three commands. -/
theorem c8_witness :
    runPlan failEnv testUguidPlan =
      (⟨(List.take 3 testUguidPlan).map printedLine, List.take 3 testUguidPlan⟩, false) :=
  c8_abort_on_failure failEnv testUguidPlan 2 (by decide)
    (by
      intro j hj hlen
      have hj01 : j = 0 ∨ j = 1 := by omega
      rcases hj01 with h | h <;> subst h <;> rfl)
    (by decide)

end Xtask

namespace Xtask

/-- Characterizes a `gen_guids` run in which all three file reads
succeed: both pre-reads happen (the unaligned one only when the aligned
comparison found no difference), then both targets are overwritten with
the fresh renders, and the exit code is 1 exactly when either old
content differed. -/
theorem genGuids_reads_ok (t a u : List Char) :
    genGuids ⟨some t, some a, some u⟩ =
      ((if a = genCode t alignedReplacements then
          [FsEvent.readTemplate, FsEvent.readAligned, FsEvent.readUnaligned,
            FsEvent.writeAligned, FsEvent.writeUnaligned]
        else
          [FsEvent.readTemplate, FsEvent.readAligned,
            FsEvent.writeAligned, FsEvent.writeUnaligned]),
        some (⟨some t, some (genCode t alignedReplacements),
            some (genCode t unalignedReplacements)⟩,
          if a = genCode t alignedReplacements then
            (if u = genCode t unalignedReplacements then 0 else 1)
          else 1)) := by
  by_cases h1 : a = genCode t alignedReplacements <;>
    by_cases h2 : u = genCode t unalignedReplacements <;>
      simp [genGuids, h1, h2]

/-- C3: when all reads succeed, both target files end up holding the
freshly rendered content regardless of `changed`, and the exit code is
non-zero exactly when at least one target file's previous content
differed from its fresh render. -/
theorem c3_generator_contract (t a u : List Char) :
    (genGuids ⟨some t, some a, some u⟩).2 =
        some (⟨some t, some (genCode t alignedReplacements),
            some (genCode t unalignedReplacements)⟩,
          if a = genCode t alignedReplacements then
            (if u = genCode t unalignedReplacements then 0 else 1)
          else 1)
      ∧ ((if a = genCode t alignedReplacements then
            (if u = genCode t unalignedReplacements then (0 : Nat) else 1)
          else 1) ≠ 0
        ↔ (a ≠ genCode t alignedReplacements ∨ u ≠ genCode t unalignedReplacements)) := by
  refine ⟨by rw [genGuids_reads_ok], ?_⟩
  by_cases h1 : a = genCode t alignedReplacements <;>
    by_cases h2 : u = genCode t unalignedReplacements <;>
      simp [h1, h2]

/-- C4 counterexample: a run in which the unaligned pre-read is reached
and fails (template and aligned reads succeed, the aligned file already
equals its fresh render, the unaligned file is missing).  The run
aborts, and contrary to the claim the aligned target has NOT been
written: no write event precedes the abort, because both pre-reads
happen before either write in `gen_guids`. -/
theorem c4_counterexample :
    (genGuids ⟨some [], some MARKER, none⟩).2 = none
      ∧ FsEvent.readUnaligned ∈ (genGuids ⟨some [], some MARKER, none⟩).1
      ∧ FsEvent.writeAligned ∉ (genGuids ⟨some [], some MARKER, none⟩).1 := by
  decide

/-- C4 amended: if the pre-read of the second (unaligned) target file
fails, the run aborts having performed no write at all: both target
files still hold their prior contents.  (The unaligned pre-read is only
reached when the aligned file's old content already equals its fresh
render, which is the hypothesis here.) -/
theorem c4_amended_no_write (t a : List Char)
    (h : a = genCode t alignedReplacements) :
    genGuids ⟨some t, some a, none⟩ =
      ([FsEvent.readTemplate, FsEvent.readAligned, FsEvent.readUnaligned], none) := by
  simp [genGuids, h]

/-- C4 amended-claim witness at a concrete filesystem. -/
theorem c4_witness :
    genGuids ⟨some [], some (genCode [] alignedReplacements), none⟩ =
      ([FsEvent.readTemplate, FsEvent.readAligned, FsEvent.readUnaligned], none) :=
  c4_amended_no_write [] (genCode [] alignedReplacements) rfl

/-- C9: an immediate second generator run over the unchanged template
and the files written by the first run finds both targets equal to the
fresh renders, leaves them untouched and exits 0. -/
theorem c9_second_run_unchanged (t a u : List Char) (fs1 : FS) (c1 : Nat)
    (h : (genGuids ⟨some t, some a, some u⟩).2 = some (fs1, c1)) :
    (genGuids fs1).2 = some (fs1, 0) := by
  rw [genGuids_reads_ok] at h
  simp only [Option.some.injEq, Prod.mk.injEq] at h
  obtain ⟨hfs, -⟩ := h
  subst hfs
  rw [genGuids_reads_ok]
  simp

/-- C9 witness: a concrete first run (stale empty targets) followed by
the second run. -/
theorem c9_witness :
    (genGuids ⟨some ([] : List Char), some (genCode [] alignedReplacements),
        some (genCode [] unalignedReplacements)⟩).2 =
      some (⟨some ([] : List Char), some (genCode [] alignedReplacements),
        some (genCode [] unalignedReplacements)⟩, 0) :=
  c9_second_run_unchanged [] [] []
    ⟨some ([] : List Char), some (genCode [] alignedReplacements),
      some (genCode [] unalignedReplacements)⟩ 1 (by decide)

/-- C10: `changed` short-circuits: when the aligned file's old content
differs from its fresh render, the unaligned file is never read; the
run completes normally even if the unaligned file is missing, writes
both fresh files and exits 1. -/
theorem c10_short_circuit (t a : List Char) (uop : Option (List Char))
    (h : a ≠ genCode t alignedReplacements) :
    genGuids ⟨some t, some a, uop⟩ =
        ([FsEvent.readTemplate, FsEvent.readAligned,
            FsEvent.writeAligned, FsEvent.writeUnaligned],
          some (⟨some t, some (genCode t alignedReplacements),
            some (genCode t unalignedReplacements)⟩, 1))
      ∧ FsEvent.readUnaligned ∉ (genGuids ⟨some t, some a, uop⟩).1 := by
  have hrun : genGuids ⟨some t, some a, uop⟩ =
      ([FsEvent.readTemplate, FsEvent.readAligned,
          FsEvent.writeAligned, FsEvent.writeUnaligned],
        some (⟨some t, some (genCode t alignedReplacements),
          some (genCode t unalignedReplacements)⟩, 1)) := by
    simp [genGuids, h]
  refine ⟨hrun, ?_⟩
  rw [hrun]
  simp

/-- C10 witness: stale aligned file, missing unaligned file. -/
theorem c10_witness :
    genGuids ⟨some [], some ['x'], none⟩ =
        ([FsEvent.readTemplate, FsEvent.readAligned,
            FsEvent.writeAligned, FsEvent.writeUnaligned],
          some (⟨some [], some (genCode [] alignedReplacements),
            some (genCode [] unalignedReplacements)⟩, 1))
      ∧ FsEvent.readUnaligned ∉ (genGuids ⟨some [], some ['x'], none⟩).1 :=
  c10_short_circuit [] ['x'] none (by decide)

end Xtask

namespace Xtask

/-- Fuel irrelevance for `replaceAllFuel`: any fuel at least the length
of the input gives the same result. -/
theorem replaceAllFuel_congr (pat val : List Char) :
    ∀ f g s, s.length ≤ f → s.length ≤ g →
      replaceAllFuel pat val f s = replaceAllFuel pat val g s := by
  intro f
  induction f with
  | zero =>
    intro g s hf _
    have hs : s = [] := List.eq_nil_of_length_eq_zero (Nat.le_zero.mp hf)
    subst hs
    cases g <;> rfl
  | succ f ih =>
    intro g s hf hg
    cases s with
    | nil => cases g <;> rfl
    | cons c rest =>
      cases g with
      | zero => simp at hg
      | succ g' =>
        simp only [replaceAllFuel]
        by_cases hp : pat.isPrefixOf (c :: rest) = true
        · rw [if_pos hp, if_pos hp]
          have h1 : (List.drop (pat.length - 1) rest).length ≤ f := by
            rw [List.length_drop]
            simp only [List.length_cons] at hf
            omega
          have h2 : (List.drop (pat.length - 1) rest).length ≤ g' := by
            rw [List.length_drop]
            simp only [List.length_cons] at hg
            omega
          rw [ih g' _ h1 h2]
        · rw [if_neg hp, if_neg hp]
          have h1 : rest.length ≤ f := by
            simp only [List.length_cons] at hf
            omega
          have h2 : rest.length ≤ g' := by
            simp only [List.length_cons] at hg
            omega
          rw [ih g' rest h1 h2]

/-- Unfolding equation: `replaceAll` on the empty string. -/
theorem replaceAll_nil (pat val : List Char) : replaceAll pat val [] = [] := rfl

/-- Unfolding equation: `replaceAll` on a cons cell replaces at a match
of the pattern, else keeps the head character. -/
theorem replaceAll_cons (pat val : List Char) (c : Char) (rest : List Char) :
    replaceAll pat val (c :: rest) =
      if pat.isPrefixOf (c :: rest) then
        val ++ replaceAll pat val (List.drop (pat.length - 1) rest)
      else
        c :: replaceAll pat val rest := by
  show replaceAllFuel pat val (c :: rest).length (c :: rest) = _
  simp only [List.length_cons, replaceAllFuel]
  by_cases hp : pat.isPrefixOf (c :: rest) = true
  · rw [if_pos hp, if_pos hp]
    congr 1
    exact replaceAllFuel_congr pat val rest.length _ _
      (by rw [List.length_drop]; omega) (Nat.le_refl _)
  · rw [if_neg hp, if_neg hp]
    rfl

/-- `replaceAll` walks untouched over a V-free prefix when the pattern
starts with `V`. -/
theorem replaceAll_noV_append (pat val p : List Char) (hpat : pat = 'V' :: p) :
    ∀ x z, noV x → replaceAll pat val (x ++ z) = x ++ replaceAll pat val z := by
  intro x
  induction x with
  | nil => intro z _; rfl
  | cons c x' ih =>
    intro z hx
    have hc : c ≠ 'V' := by
      intro hcv
      subst hcv
      exact hx (List.mem_cons_self _ _)
    have hx' : noV x' := fun hm => hx (List.mem_cons_of_mem _ hm)
    have hnp : ¬ pat.isPrefixOf (c :: (x' ++ z)) = true := by
      intro hp
      rw [List.isPrefixOf_iff_prefix, hpat] at hp
      obtain ⟨w, hw⟩ := hp
      rw [List.cons_append] at hw
      exact hc (List.cons.injEq _ _ _ _ ▸ hw).1.symm
    rw [List.cons_append, replaceAll_cons, if_neg hnp, ih z hx', List.cons_append]

/-- `replaceAll` replaces an occurrence of the pattern sitting at the
head of the string and continues after it. -/
theorem replaceAll_here (pat val z : List Char) (c : Char) (p : List Char)
    (hpat : pat = c :: p) :
    replaceAll pat val (pat ++ z) = val ++ replaceAll pat val z := by
  subst hpat
  have hpre : (c :: p).isPrefixOf (c :: (p ++ z)) = true := by
    rw [List.isPrefixOf_iff_prefix]
    exact List.prefix_append (c :: p) z
  rw [List.cons_append, replaceAll_cons, if_pos hpre]
  have hlen : (c :: p).length - 1 = p.length := by simp
  rw [hlen, List.drop_left]

end Xtask

namespace Xtask

/-- Membership in the token list, spelled out. -/
theorem mem_TOKENS_iff (t : List Char) :
    t ∈ TOKENS ↔ t = NAME_TOK ∨ t = REPR_TOK ∨ t = OTHER_TOK ∨ t = DOC_TOK := by
  simp [TOKENS]

/-- Each placeholder token is a capital `V` followed by a V-free tail
(tokens contain exactly one `V`, at the start). -/
theorem tokens_shape : ∀ t ∈ TOKENS, ∃ p, t = 'V' :: p ∧ noV p := by
  intro t ht
  rw [mem_TOKENS_iff] at ht
  rcases ht with rfl | rfl | rfl | rfl
  · exact ⟨("AR_STRUCT_NAME").toList, by decide, by decide⟩
  · exact ⟨("AR_STRUCT_REPR").toList, by decide, by decide⟩
  · exact ⟨("AR_OTHER_STRUCT_NAME").toList, by decide, by decide⟩
  · exact ⟨("AR_STRUCT_DOC").toList, by decide, by decide⟩

/-- If two lists disagree at an index below both lengths, the first is
not a prefix of the second followed by anything. -/
theorem not_prefix_of_ne_at (t1 t2 z : List Char) (k : Nat)
    (h1 : k < t1.length) (h2 : k < t2.length) (hne : t1[k]? ≠ t2[k]?) :
    ¬ t1 <+: (t2 ++ z) := by
  rintro ⟨w, hw⟩
  apply hne
  have hk := congrArg (fun l => l[k]?) hw
  simp only at hk
  rw [List.getElem?_append_left h1] at hk
  rw [hk]
  exact List.getElem?_append_left h2

/-- Distinct placeholder tokens disagree at index 4 or 11, so no token
is a prefix of a different token followed by anything. -/
theorem token_not_prefix (t1 t2 : List Char) (h1 : t1 ∈ TOKENS) (h2 : t2 ∈ TOKENS)
    (hne : t1 ≠ t2) (z : List Char) : ¬ t1 <+: (t2 ++ z) := by
  rw [mem_TOKENS_iff] at h1 h2
  rcases h1 with rfl | rfl | rfl | rfl <;> rcases h2 with rfl | rfl | rfl | rfl <;>
    first
      | exact absurd rfl hne
      | exact not_prefix_of_ne_at _ _ z 4 (by decide) (by decide) (by decide)
      | exact not_prefix_of_ne_at _ _ z 11 (by decide) (by decide) (by decide)

/-- `replaceAll` leaves a token segment different from its pattern
intact and continues after it. -/
theorem replaceAll_skip_token (pat val : List Char) (hpat : pat ∈ TOKENS)
    (t : List Char) (ht : t ∈ TOKENS) (hne : pat ≠ t) (z : List Char) :
    replaceAll pat val (t ++ z) = t ++ replaceAll pat val z := by
  obtain ⟨p, hp, _⟩ := tokens_shape pat hpat
  obtain ⟨q, hq, hqV⟩ := tokens_shape t ht
  have hnp : ¬ pat.isPrefixOf (t ++ z) = true := by
    intro hpre
    rw [List.isPrefixOf_iff_prefix] at hpre
    exact token_not_prefix pat t hpat ht hne z hpre
  rw [hq] at hnp ⊢
  rw [List.cons_append] at hnp
  rw [List.cons_append, replaceAll_cons, if_neg hnp,
    replaceAll_noV_append pat val p hp q z hqV, List.cons_append]

/-- Master lemma: on a well-formed segmentation, `replaceAll` for one
token acts exactly segment-wise. -/
theorem replaceAll_flattenSegs (pat val : List Char) (hpat : pat ∈ TOKENS) :
    ∀ segs, SegOk segs →
      replaceAll pat val (Seg.flattenList segs) =
        Seg.flattenList (substSeg pat val segs) := by
  intro segs
  induction segs with
  | nil => intro _; rfl
  | cons seg rest ih =>
    intro hok
    have hokrest : SegOk rest := fun s hs => hok s (List.mem_cons_of_mem _ hs)
    have hokhd := hok seg (List.mem_cons_self _ _)
    cases seg with
    | lit s =>
      have hs : noV s := hokhd
      obtain ⟨p, hp, _⟩ := tokens_shape pat hpat
      show replaceAll pat val (s ++ Seg.flattenList rest) =
        Seg.flattenList (substSeg pat val (Seg.lit s :: rest))
      rw [replaceAll_noV_append pat val p hp s _ hs, ih hokrest]
      rfl
    | tok t =>
      have ht : t ∈ TOKENS := hokhd
      by_cases he : t = pat
      · subst he
        obtain ⟨p, hp, _⟩ := tokens_shape t ht
        show replaceAll t val (t ++ Seg.flattenList rest) =
          Seg.flattenList (substSeg t val (Seg.tok t :: rest))
        rw [replaceAll_here t val _ 'V' p hp, ih hokrest]
        simp [substSeg, Seg.flattenList]
      · show replaceAll pat val (t ++ Seg.flattenList rest) =
          Seg.flattenList (substSeg pat val (Seg.tok t :: rest))
        rw [replaceAll_skip_token pat val hpat t ht (fun hh => he hh.symm) _,
          ih hokrest]
        simp [substSeg, Seg.flattenList, he]

end Xtask

namespace Xtask

/-- Substituting a V-free value preserves well-formedness of a
segmentation. -/
theorem SegOk_substSeg (pat val : List Char) (hval : noV val) :
    ∀ segs, SegOk segs → SegOk (substSeg pat val segs) := by
  intro segs
  induction segs with
  | nil => intro _ seg hseg; simp [substSeg] at hseg
  | cons s rest ih =>
    intro hok seg hseg
    have hokrest : SegOk rest := fun x hx => hok x (List.mem_cons_of_mem _ hx)
    rw [substSeg, List.map_cons] at hseg
    rcases List.mem_cons.mp hseg with h | h
    · subst h
      have hok0 := hok s (List.mem_cons_self _ _)
      cases s with
      | lit ls => exact hok0
      | tok tt =>
        by_cases he : tt = pat
        · show Seg.ok (if tt = pat then Seg.lit val else Seg.tok tt)
          rw [if_pos he]
          exact hval
        · show Seg.ok (if tt = pat then Seg.lit val else Seg.tok tt)
          rw [if_neg he]
          exact hok0
    · exact ih hokrest seg h

/-- Rendering a well-formed segmentation: the generated code is the
marker followed by the segment-wise substitution of the four tokens in
replacement order. -/
theorem genCode_flattenSegs (r : Replacements)
    (hn : noV r.name) (hrr : noV r.repr) (ho : noV r.other) (hd : noV r.doc)
    (segs : List Seg) (hok : SegOk segs) :
    genCode (Seg.flattenList segs) r =
      MARKER ++ Seg.flattenList
        (substSeg DOC_TOK r.doc (substSeg OTHER_TOK r.other
          (substSeg REPR_TOK r.repr (substSeg NAME_TOK r.name segs)))) := by
  have m1 : NAME_TOK ∈ TOKENS := by rw [mem_TOKENS_iff]; tauto
  have m2 : REPR_TOK ∈ TOKENS := by rw [mem_TOKENS_iff]; tauto
  have m3 : OTHER_TOK ∈ TOKENS := by rw [mem_TOKENS_iff]; tauto
  have m4 : DOC_TOK ∈ TOKENS := by rw [mem_TOKENS_iff]; tauto
  unfold genCode
  rw [replaceAll_flattenSegs NAME_TOK r.name m1 segs hok,
    replaceAll_flattenSegs REPR_TOK r.repr m2 _
      (SegOk_substSeg _ _ hn _ hok),
    replaceAll_flattenSegs OTHER_TOK r.other m3 _
      (SegOk_substSeg _ _ hrr _ (SegOk_substSeg _ _ hn _ hok)),
    replaceAll_flattenSegs DOC_TOK r.doc m4 _
      (SegOk_substSeg _ _ ho _
        (SegOk_substSeg _ _ hrr _ (SegOk_substSeg _ _ hn _ hok)))]

/-- The four substitutions distribute over segment-list append. -/
theorem substSeg_append (pat val : List Char) (l1 l2 : List Seg) :
    substSeg pat val (l1 ++ l2) = substSeg pat val l1 ++ substSeg pat val l2 := by
  simp [substSeg]

/-- Flattening distributes over segment-list append. -/
theorem flattenSegs_append (l1 l2 : List Seg) :
    Seg.flattenList (l1 ++ l2) = Seg.flattenList l1 ++ Seg.flattenList l2 := by
  induction l1 with
  | nil => rfl
  | cons s rest ih => cases s <;> simp [Seg.flattenList, ih, List.append_assoc]

/-- The four substitutions keep a literal segment unchanged. -/
theorem substSeg_chain_lit (r : Replacements) (s : List Char) :
    substSeg DOC_TOK r.doc (substSeg OTHER_TOK r.other
      (substSeg REPR_TOK r.repr (substSeg NAME_TOK r.name [Seg.lit s]))) =
      [Seg.lit s] := by
  simp [substSeg]

/-- The four substitutions turn a single token segment into the literal
value `tokenValue` assigns it. -/
theorem substSeg_chain_tok (r : Replacements) (t : List Char) (ht : t ∈ TOKENS) :
    substSeg DOC_TOK r.doc (substSeg OTHER_TOK r.other
      (substSeg REPR_TOK r.repr (substSeg NAME_TOK r.name [Seg.tok t]))) =
      [Seg.lit (tokenValue r t)] := by
  rw [mem_TOKENS_iff] at ht
  rcases ht with rfl | rfl | rfl | rfl
  · simp [substSeg, tokenValue]
  · simp [substSeg, tokenValue, show REPR_TOK ≠ NAME_TOK from by decide]
  · simp [substSeg, tokenValue, show OTHER_TOK ≠ NAME_TOK from by decide,
      show OTHER_TOK ≠ REPR_TOK from by decide]
  · simp [substSeg, tokenValue, show DOC_TOK ≠ NAME_TOK from by decide,
      show DOC_TOK ≠ REPR_TOK from by decide,
      show DOC_TOK ≠ OTHER_TOK from by decide]

/-- Appending V-free strings is V-free. -/
theorem noV_append (x y : List Char) (hx : noV x) (hy : noV y) : noV (x ++ y) := by
  intro h
  rcases List.mem_append.mp h with h | h
  · exact hx h
  · exact hy h

/-- Every token value substituted by a profile with V-free fields is
V-free. -/
theorem noV_tokenValue (r : Replacements)
    (hn : noV r.name) (hrr : noV r.repr) (ho : noV r.other) (hd : noV r.doc)
    (t : List Char) (ht : t ∈ TOKENS) : noV (tokenValue r t) := by
  rw [mem_TOKENS_iff] at ht
  rcases ht with rfl | rfl | rfl | rfl
  · rw [tokenValue, if_pos rfl]; exact hn
  · rw [tokenValue, if_neg (by decide), if_pos rfl]; exact hrr
  · rw [tokenValue, if_neg (by decide), if_neg (by decide), if_pos rfl]; exact ho
  · rw [tokenValue, if_neg (by decide), if_neg (by decide), if_neg (by decide),
      if_pos rfl]; exact hd

/-- A pattern containing `V` has no occurrence in a V-free string. -/
theorem countOcc_eq_zero_of_noV (pat s : List Char) (hV : 'V' ∈ pat)
    (hs : noV s) : countOcc pat s = 0 := by
  unfold countOcc
  rw [List.length_eq_zero, List.filter_eq_nil_iff]
  intro i _
  simp only [Bool.not_eq_true]
  rw [← Bool.not_eq_true]
  intro hp
  rw [List.isPrefixOf_iff_prefix] at hp
  exact hs (List.drop_subset i s (hp.subset hV))

end Xtask

namespace Xtask

/-- Core rendering theorem for one profile with V-free field values on a
template whose placeholder occurrences are exactly the four tokens, one
each examples apart, isolated by V-free literal text: the output is the
marker plus the blank line plus the per-token substitution; it contains
no placeholder occurrence, and it contains the profile's counterpart
struct name. -/
theorem genCode_isolated (r : Replacements)
    (hn : noV r.name) (hrr : noV r.repr) (ho : noV r.other) (hd : noV r.doc)
    (a0 a1 a2 a3 a4 t1 t2 t3 t4 : List Char)
    (hperm : List.Perm [t1, t2, t3, t4] TOKENS)
    (h0 : noV a0) (h1 : noV a1) (h2 : noV a2) (h3 : noV a3) (h4 : noV a4) :
    genCode (a0 ++ t1 ++ a1 ++ t2 ++ a2 ++ t3 ++ a3 ++ t4 ++ a4) r =
        MARKER ++ a0 ++ tokenValue r t1 ++ a1 ++ tokenValue r t2 ++ a2 ++
          tokenValue r t3 ++ a3 ++ tokenValue r t4 ++ a4
      ∧ (∀ tok ∈ TOKENS,
          countOcc tok (genCode (a0 ++ t1 ++ a1 ++ t2 ++ a2 ++ t3 ++ a3 ++ t4 ++ a4) r) = 0)
      ∧ r.other <:+:
          genCode (a0 ++ t1 ++ a1 ++ t2 ++ a2 ++ t3 ++ a3 ++ t4 ++ a4) r := by
  have ht1 : t1 ∈ TOKENS := hperm.mem_iff.mp (by simp)
  have ht2 : t2 ∈ TOKENS := hperm.mem_iff.mp (by simp)
  have ht3 : t3 ∈ TOKENS := hperm.mem_iff.mp (by simp)
  have ht4 : t4 ∈ TOKENS := hperm.mem_iff.mp (by simp)
  have hok : SegOk [Seg.lit a0, Seg.tok t1, Seg.lit a1, Seg.tok t2, Seg.lit a2,
      Seg.tok t3, Seg.lit a3, Seg.tok t4, Seg.lit a4] := by
    intro seg hseg
    simp only [List.mem_cons, List.not_mem_nil, or_false] at hseg
    rcases hseg with rfl | rfl | rfl | rfl | rfl | rfl | rfl | rfl | rfl
    · exact h0
    · exact ht1
    · exact h1
    · exact ht2
    · exact h2
    · exact ht3
    · exact h3
    · exact ht4
    · exact h4
  have hflat : Seg.flattenList [Seg.lit a0, Seg.tok t1, Seg.lit a1, Seg.tok t2,
      Seg.lit a2, Seg.tok t3, Seg.lit a3, Seg.tok t4, Seg.lit a4] =
      a0 ++ t1 ++ a1 ++ t2 ++ a2 ++ t3 ++ a3 ++ t4 ++ a4 := by
    simp [Seg.flattenList, List.append_assoc]
  have hsplit : ([Seg.lit a0, Seg.tok t1, Seg.lit a1, Seg.tok t2, Seg.lit a2,
      Seg.tok t3, Seg.lit a3, Seg.tok t4, Seg.lit a4] : List Seg) =
      [Seg.lit a0] ++ [Seg.tok t1] ++ [Seg.lit a1] ++ [Seg.tok t2] ++ [Seg.lit a2]
        ++ [Seg.tok t3] ++ [Seg.lit a3] ++ [Seg.tok t4] ++ [Seg.lit a4] := by
    simp
  have hgen := genCode_flattenSegs r hn hrr ho hd _ hok
  rw [hflat] at hgen
  rw [hsplit] at hgen
  simp only [substSeg_append, flattenSegs_append] at hgen
  rw [substSeg_chain_lit r a0, substSeg_chain_lit r a1, substSeg_chain_lit r a2,
    substSeg_chain_lit r a3, substSeg_chain_lit r a4,
    substSeg_chain_tok r t1 ht1, substSeg_chain_tok r t2 ht2,
    substSeg_chain_tok r t3 ht3, substSeg_chain_tok r t4 ht4] at hgen
  have heq : genCode (a0 ++ t1 ++ a1 ++ t2 ++ a2 ++ t3 ++ a3 ++ t4 ++ a4) r =
      MARKER ++ a0 ++ tokenValue r t1 ++ a1 ++ tokenValue r t2 ++ a2 ++
        tokenValue r t3 ++ a3 ++ tokenValue r t4 ++ a4 := by
    rw [hgen]
    simp [Seg.flattenList, List.append_assoc]
  refine ⟨heq, ?_, ?_⟩
  · intro tok htok
    rw [heq]
    have hVtok : 'V' ∈ tok := by
      rw [mem_TOKENS_iff] at htok
      rcases htok with rfl | rfl | rfl | rfl <;> decide
    apply countOcc_eq_zero_of_noV tok _ hVtok
    have hM : noV MARKER := by decide
    have n1 : noV (MARKER ++ a0) := noV_append _ _ hM h0
    have n2 := noV_append _ _ n1 (noV_tokenValue r hn hrr ho hd t1 ht1)
    have n3 := noV_append _ _ n2 h1
    have n4 := noV_append _ _ n3 (noV_tokenValue r hn hrr ho hd t2 ht2)
    have n5 := noV_append _ _ n4 h2
    have n6 := noV_append _ _ n5 (noV_tokenValue r hn hrr ho hd t3 ht3)
    have n7 := noV_append _ _ n6 h3
    have n8 := noV_append _ _ n7 (noV_tokenValue r hn hrr ho hd t4 ht4)
    exact noV_append _ _ n8 h4
  · have hmem : OTHER_TOK ∈ [t1, t2, t3, t4] := hperm.mem_iff.mpr (by
      rw [mem_TOKENS_iff]; tauto)
    have hov : tokenValue r OTHER_TOK = r.other := by
      rw [tokenValue, if_neg (by decide), if_neg (by decide), if_pos rfl]
    rw [heq]
    simp only [List.mem_cons, List.not_mem_nil, or_false] at hmem
    rcases hmem with h | h | h | h
    · rw [← h, hov]
      exact ⟨MARKER ++ a0, a1 ++ tokenValue r t2 ++ a2 ++ tokenValue r t3 ++ a3
        ++ tokenValue r t4 ++ a4, by simp [List.append_assoc]⟩
    · rw [← h, hov]
      exact ⟨MARKER ++ a0 ++ tokenValue r t1 ++ a1, a2 ++ tokenValue r t3 ++ a3
        ++ tokenValue r t4 ++ a4, by simp [List.append_assoc]⟩
    · rw [← h, hov]
      exact ⟨MARKER ++ a0 ++ tokenValue r t1 ++ a1 ++ tokenValue r t2 ++ a2,
        a3 ++ tokenValue r t4 ++ a4, by simp [List.append_assoc]⟩
    · rw [← h, hov]
      exact ⟨MARKER ++ a0 ++ tokenValue r t1 ++ a1 ++ tokenValue r t2 ++ a2
        ++ tokenValue r t3 ++ a3, a4, by simp [List.append_assoc]⟩

end Xtask

namespace Xtask

set_option maxRecDepth 100000 in
set_option maxHeartbeats 1000000 in
/-- C5 counterexample: `advTemplate` contains each of the four
placeholder tokens exactly once, yet the unaligned rendering contains an
(unresolved) occurrence of `VAR_STRUCT_REPR`: replacing the single
`VAR_STRUCT_REPR` occurrence by the unaligned repr value `C` merges the
surrounding text `VAR_STRU...T_REPR` into a fresh token occurrence,
which the later substitutions do not remove.  This refutes the claim
that the output never contains a placeholder token for every template
whose placeholder occurrences are exactly the four tokens. -/
theorem c5_counterexample :
    countOcc NAME_TOK advTemplate = 1
      ∧ countOcc REPR_TOK advTemplate = 1
      ∧ countOcc OTHER_TOK advTemplate = 1
      ∧ countOcc DOC_TOK advTemplate = 1
      ∧ countOcc REPR_TOK (genCode advTemplate unalignedReplacements) = 1 := by
  decide

/-- C5 amended: for every template whose placeholder occurrences are
exactly the four tokens, one occurrence each, and in which the letter
`V` occurs only as the first character of those four occurrences (the
inter-token text is V-free, ruling out token fragments that could merge
with replacement values), each rendered output is the autogenerated
marker line, a blank line, and the template with the four tokens
replaced by the profile's name, repr, counterpart name and doc text;
the outputs contain no occurrence of any placeholder token; and each
profile's output contains the other profile's struct name. -/
theorem c5_substitution_amended (a0 a1 a2 a3 a4 t1 t2 t3 t4 : List Char)
    (hperm : List.Perm [t1, t2, t3, t4] TOKENS)
    (h0 : noV a0) (h1 : noV a1) (h2 : noV a2) (h3 : noV a3) (h4 : noV a4) :
    (genCode (a0 ++ t1 ++ a1 ++ t2 ++ a2 ++ t3 ++ a3 ++ t4 ++ a4)
          alignedReplacements =
        MARKER ++ a0 ++ tokenValue alignedReplacements t1 ++ a1 ++
          tokenValue alignedReplacements t2 ++ a2 ++
          tokenValue alignedReplacements t3 ++ a3 ++
          tokenValue alignedReplacements t4 ++ a4
      ∧ (∀ tok ∈ TOKENS,
          countOcc tok (genCode (a0 ++ t1 ++ a1 ++ t2 ++ a2 ++ t3 ++ a3 ++ t4 ++ a4)
            alignedReplacements) = 0))
    ∧ (genCode (a0 ++ t1 ++ a1 ++ t2 ++ a2 ++ t3 ++ a3 ++ t4 ++ a4)
          unalignedReplacements =
        MARKER ++ a0 ++ tokenValue unalignedReplacements t1 ++ a1 ++
          tokenValue unalignedReplacements t2 ++ a2 ++
          tokenValue unalignedReplacements t3 ++ a3 ++
          tokenValue unalignedReplacements t4 ++ a4
      ∧ (∀ tok ∈ TOKENS,
          countOcc tok (genCode (a0 ++ t1 ++ a1 ++ t2 ++ a2 ++ t3 ++ a3 ++ t4 ++ a4)
            unalignedReplacements) = 0))
    ∧ unalignedReplacements.name <:+:
        genCode (a0 ++ t1 ++ a1 ++ t2 ++ a2 ++ t3 ++ a3 ++ t4 ++ a4)
          alignedReplacements
    ∧ alignedReplacements.name <:+:
        genCode (a0 ++ t1 ++ a1 ++ t2 ++ a2 ++ t3 ++ a3 ++ t4 ++ a4)
          unalignedReplacements := by
  obtain ⟨ea, za, ia⟩ := genCode_isolated alignedReplacements
    (by decide) (by decide) (by decide) (by decide)
    a0 a1 a2 a3 a4 t1 t2 t3 t4 hperm h0 h1 h2 h3 h4
  obtain ⟨eu, zu, iu⟩ := genCode_isolated unalignedReplacements
    (by decide) (by decide) (by decide) (by decide)
    a0 a1 a2 a3 a4 t1 t2 t3 t4 hperm h0 h1 h2 h3 h4
  exact ⟨⟨ea, za⟩, ⟨eu, zu⟩, ia, iu⟩

/-- C5 amended-claim witness: the template consisting of the four
tokens in replacement order with empty inter-token text. -/
theorem c5_witness :
    (genCode ([] ++ NAME_TOK ++ [] ++ REPR_TOK ++ [] ++ OTHER_TOK ++ [] ++ DOC_TOK ++ [])
          alignedReplacements =
        MARKER ++ [] ++ tokenValue alignedReplacements NAME_TOK ++ [] ++
          tokenValue alignedReplacements REPR_TOK ++ [] ++
          tokenValue alignedReplacements OTHER_TOK ++ [] ++
          tokenValue alignedReplacements DOC_TOK ++ []
      ∧ (∀ tok ∈ TOKENS,
          countOcc tok (genCode ([] ++ NAME_TOK ++ [] ++ REPR_TOK ++ [] ++ OTHER_TOK ++ [] ++ DOC_TOK ++ [])
            alignedReplacements) = 0))
    ∧ (genCode ([] ++ NAME_TOK ++ [] ++ REPR_TOK ++ [] ++ OTHER_TOK ++ [] ++ DOC_TOK ++ [])
          unalignedReplacements =
        MARKER ++ [] ++ tokenValue unalignedReplacements NAME_TOK ++ [] ++
          tokenValue unalignedReplacements REPR_TOK ++ [] ++
          tokenValue unalignedReplacements OTHER_TOK ++ [] ++
          tokenValue unalignedReplacements DOC_TOK ++ []
      ∧ (∀ tok ∈ TOKENS,
          countOcc tok (genCode ([] ++ NAME_TOK ++ [] ++ REPR_TOK ++ [] ++ OTHER_TOK ++ [] ++ DOC_TOK ++ [])
            unalignedReplacements) = 0))
    ∧ unalignedReplacements.name <:+:
        genCode ([] ++ NAME_TOK ++ [] ++ REPR_TOK ++ [] ++ OTHER_TOK ++ [] ++ DOC_TOK ++ [])
          alignedReplacements
    ∧ alignedReplacements.name <:+:
        genCode ([] ++ NAME_TOK ++ [] ++ REPR_TOK ++ [] ++ OTHER_TOK ++ [] ++ DOC_TOK ++ [])
          unalignedReplacements :=
  c5_substitution_amended [] [] [] [] [] NAME_TOK REPR_TOK OTHER_TOK DOC_TOK
    (List.Perm.refl TOKENS) (by decide) (by decide) (by decide) (by decide) (by decide)

end Xtask
